import Mathlib

set_option linter.unusedVariables false

/-!
Verification development for the estafette-gcp-service-account controller.

The reconciliation engine of src/main.go and the Google Cloud IAM client of the
current service variant are embedded as executable Lean definitions.  The
conventions of the embedding are:

* Go time.Time values are modelled as whole seconds (Int).  The RFC3339 strings
  stored in the state annotation have second granularity, so formatting a time
  and parsing it back is the identity on this representation.  A timestamp
  field of the persisted state is modelled as Option Int: none models the empty
  string, some t models the RFC3339 rendering of t.  The Go code parses a
  nonempty unparseable timestamp to the zero time.Time, which behaves exactly
  like some goZeroTime in every guard, so that case needs no extra constructor.
* The Kubernetes store and the IAM backend are external collaborators.  They
  are modelled as response environments, and every outbound call is recorded in
  a call log so that theorems can speak about which backend operations a code
  path performs.
* The JSON text layer of encoding/json is external; the codec of the state
  annotation is embedded at the level of a JSON syntax tree.
-/

namespace GcpSA

/-- Controller mode flag: the mode command line flag of src/main.go admits
exactly the values normal, convenient and rotate_keys_only. -/
inductive Mode where
  | normal
  | convenient
  | rotate_keys_only
deriving DecidableEq, Repr

/-- A single requested permission, from the GCPServiceAccountPermission struct
of src/main.go. -/
structure GCPServiceAccountPermission where
  project : String
  role : String
deriving DecidableEq, Repr

/-- Engine-level view of the GCPServiceAccountState struct of src/main.go.
String fields are kept verbatim; the two RFC3339 timestamp fields LastRenewed
and LastAttempt are modelled by their parsed value (none models the empty
string).  The separate struct GCPServiceAccountState below keeps the raw
string fields for the annotation codec. -/
structure SAState where
  enabled : String
  name : String
  filename : String
  disableKeyRotation : Bool
  fullServiceAccountName : String
  fullServiceAccountEmail : String
  permissions : List GCPServiceAccountPermission
  lastRenewed : Option Int
  lastAttempt : Option Int
deriving DecidableEq, Repr

/-- The zero value of the state struct. -/
def SAState.zero : SAState :=
  ⟨"", "", "", false, "", "", [], none, none⟩

/-- The Go zero time.Time (January 1 of year 1) in seconds relative to the
Unix epoch.  An empty or unparseable timestamp string parses to this value,
which makes every elapsed-time guard see an essentially infinite age. -/
def goZeroTime : Int := -62135596800

/-- Parsing of a stored timestamp field, mirroring the parse blocks of
makeSecretChanges (src/main.go lines 352 to 369): the empty string and a parse
failure both yield the zero time. -/
def parseTimeField : Option Int → Int
  | none => goZeroTime
  | some t => t

/-- Process level configuration of the controller (mode and threshold flags of
src/main.go). -/
structure Config where
  mode : Mode
  allowDisableKeyRotationOverride : Bool
  keyRotationAfterHours : Int
  purgeKeysAfterHours : Int
deriving DecidableEq, Repr

/-- Outcomes the Kubernetes resource store returns for the four calls the
update gateway makes. -/
structure StoreEnv where
  updateSecretOk : Bool
  getSecretOk : Bool
  updateServiceAccountOk : Bool
  getServiceAccountOk : Bool
deriving DecidableEq, Repr

/-- Calls the update gateway issues against the resource store. -/
inductive StoreCall where
  | updateSecret
  | getSecret
  | updateServiceAccount
deriving DecidableEq, Repr

instance exceptDecEq {e a : Type} [DecidableEq e] [DecidableEq a] :
    DecidableEq (Except e a) := fun x y =>
  match x, y with
  | Except.ok v, Except.ok w =>
    if h : v = w then isTrue (by rw [h]) else isFalse (fun hh => h (Except.ok.inj hh))
  | Except.ok _, Except.error _ => isFalse (fun hh => Except.noConfusion hh)
  | Except.error _, Except.ok _ => isFalse (fun hh => Except.noConfusion hh)
  | Except.error v, Except.error w =>
    if h : v = w then isTrue (by rw [h]) else isFalse (fun hh => h (Except.error.inj hh))

/-- Model of updateSecret (src/main.go lines 869 to 895): serialize the state
into the annotation (marshalling this struct cannot fail), issue the store
update, then re-fetch the secret; a failure of either store call is returned
to the caller as an error. -/
def updateSecret (env : StoreEnv) : Except Unit Unit × List StoreCall :=
  if env.updateSecretOk then
    if env.getSecretOk then
      (Except.ok (), [StoreCall.updateSecret, StoreCall.getSecret])
    else
      (Except.error (), [StoreCall.updateSecret, StoreCall.getSecret])
  else
    (Except.error (), [StoreCall.updateSecret])

/-- Model of updateServiceAccount (src/main.go lines 897 to 913): the state and
workload identity annotations are written and the store update is issued, but
the source discards the result of the Update call; the error variable tested
afterwards is the (nil) marshal error, so the function performs no re-fetch
and always returns success regardless of the store outcome. -/
def updateServiceAccount (env : StoreEnv) : Except Unit Unit × List StoreCall :=
  (Except.ok (), [StoreCall.updateServiceAccount])

/-- One persist attempt of the secret engine: the state written into the
annotation is recorded, and the attempt succeeds exactly when updateSecret
returns no error. -/
def persistSecret (env : StoreEnv) (s : SAState) : Bool × List SAState :=
  (match (updateSecret env).1 with
    | Except.ok _ => true
    | Except.error _ => false,
   [s])

/-- Calls the engine issues against the Google Cloud IAM service. -/
inductive IAMCall where
  | getByDisplayName (name : String)
  | createAccount (name : String)
  | setRoleBinding (fullServiceAccountName : String)
      (permissions : List GCPServiceAccountPermission)
  | createKey (fullServiceAccountName : String)
  | purgeKeys (fullServiceAccountName : String) (purgeKeysAfterHours : Int)
  | deleteAccount (fullServiceAccountName : String)
deriving DecidableEq, Repr

/-- Recognizer for the purge call of the IAM backend. -/
def IAMCall.isPurgeKeys : IAMCall → Bool
  | IAMCall.purgeKeys _ _ => true
  | _ => false

/-- Recognizer for the key creation call of the IAM backend. -/
def IAMCall.isCreateKey : IAMCall → Bool
  | IAMCall.createKey _ => true
  | _ => false

/-- Responses of the external collaborators during one reconciliation pass.
createKey carries the key material: none models material whose PrivateKeyData
is not valid base64, some bytes models material decoding to those bytes. -/
structure PassEnv where
  store : StoreEnv
  getByDisplayName : Except Unit (String × String)
  createAccount : Except Unit String
  createKey : Except Unit (Option (List Nat))
  purgeKeys : Except Unit Int
  deleteAccount : Except Unit Bool

/-- The binary data map of a secret. -/
abbrev SecretData := List (String × List Nat)

/-- Lookup in the secret data map. -/
def dataLookup (d : SecretData) (k : String) : Option (List Nat) :=
  (d.find? (fun e => e.1 == k)).map (fun e => e.2)

/-- Map write into the secret data map. -/
def dataInsert (d : SecretData) (k : String) (v : List Nat) : SecretData :=
  if (d.find? (fun e => e.1 == k)).isSome then
    d.map (fun e => if e.1 == k then (k, v) else e)
  else
    d ++ [(k, v)]

/-- Result of the adopt-or-create sub-action. -/
structure GetOrCreateResult where
  created : Bool
  state : SAState
  iam : List IAMCall
  writes : List SAState
deriving DecidableEq, Repr

/-- Model of makeSecretChangesGetOrCreateServiceAccount (src/main.go lines 394
to 484).  The source has two consecutive if blocks whose guards are mutually
exclusive on the mode, rendered here as an if chain.  Each branch first stamps
the lease and persists it, then calls the IAM backend, then persists the
adopted or created account name. -/
def makeSecretChangesGetOrCreateServiceAccount (cfg : Config) (env : PassEnv)
    (desiredState currentState : SAState) (lastAttempt now : Int) :
    GetOrCreateResult :=
  if cfg.mode = Mode.rotate_keys_only ∧ desiredState.enabled = "true" ∧
      desiredState.name ≠ "" ∧ now - lastAttempt > 15 * 60 ∧
      currentState.fullServiceAccountName = "" then
    let locked := { currentState with lastAttempt := some now }
    let p1 := persistSecret env.store locked
    if p1.1 then
      match env.getByDisplayName with
      | Except.error _ =>
        ⟨false, locked, [IAMCall.getByDisplayName desiredState.name], p1.2⟩
      | Except.ok fne =>
        let updated := { locked with
          enabled := desiredState.enabled
          name := desiredState.name
          fullServiceAccountName := fne.1 }
        let p2 := persistSecret env.store updated
        if p2.1 then
          ⟨true, updated, [IAMCall.getByDisplayName desiredState.name], p1.2 ++ p2.2⟩
        else
          ⟨false, updated, [IAMCall.getByDisplayName desiredState.name], p1.2 ++ p2.2⟩
    else
      ⟨false, locked, [], p1.2⟩
  else if (cfg.mode = Mode.normal ∨ cfg.mode = Mode.convenient) ∧
      desiredState.enabled = "true" ∧ desiredState.name ≠ "" ∧
      now - lastAttempt > 15 * 60 ∧ currentState.fullServiceAccountName = "" then
    let locked := { currentState with lastAttempt := some now }
    let p1 := persistSecret env.store locked
    if p1.1 then
      match env.createAccount with
      | Except.error _ =>
        ⟨false, locked, [IAMCall.createAccount desiredState.name], p1.2⟩
      | Except.ok fullName =>
        let updated := { locked with
          enabled := desiredState.enabled
          name := desiredState.name
          fullServiceAccountName := fullName }
        let p2 := persistSecret env.store updated
        if p2.1 then
          ⟨true, updated, [IAMCall.createAccount desiredState.name], p1.2 ++ p2.2⟩
        else
          ⟨false, updated, [IAMCall.createAccount desiredState.name], p1.2 ++ p2.2⟩
    else
      ⟨false, locked, [], p1.2⟩
  else
    ⟨false, currentState, [], []⟩

/-- Model of makeSecretChangesSetPermissions (src/main.go lines 486 to 499).
The guard is rendered exactly as written in the source, including the
comparison of fullServiceAccountName with the empty string; when it fires the
sub-action delegates to SetServiceAccountRoleBinding with the recorded name
and ignores the outcome, and it never touches the state or the store. -/
def makeSecretChangesSetPermissions (cfg : Config)
    (desiredState currentState : SAState) (lastAttempt now : Int)
    (newAccount : Bool) : List IAMCall :=
  if cfg.mode = Mode.convenient ∧ desiredState.enabled = "true" ∧
      desiredState.name ≠ "" ∧ (now - lastAttempt > 15 * 60 ∨ newAccount = true) ∧
      currentState.fullServiceAccountName = "" ∧
      currentState.permissions.length ≠ desiredState.permissions.length then
    [IAMCall.setRoleBinding currentState.fullServiceAccountName desiredState.permissions]
  else
    []

/-- Result of the rotate-keys sub-action. -/
structure RotateResult where
  state : SAState
  data : SecretData
  iam : List IAMCall
  writes : List SAState
deriving DecidableEq, Repr

/-- Model of makeSecretChangesRotateKeys (src/main.go lines 501 to 581).  The
lease is re-stamped and persisted first unless the account was created in this
same pass; the key material is then requested, LastRenewed and Filename are
set, the decoded key bytes are stored under the resolved filename and the
secret is persisted.  A failure at any step aborts the sub-action. -/
def makeSecretChangesRotateKeys (cfg : Config) (env : PassEnv)
    (desiredState currentState : SAState) (lastAttempt lastRenewed now : Int)
    (newAccount : Bool) (data : SecretData) : RotateResult :=
  let filename :=
    if desiredState.filename = "" then "service-account-key.json" else desiredState.filename
  let fileExists := (dataLookup data filename).isSome
  if (cfg.mode = Mode.normal ∨ cfg.mode = Mode.convenient ∨ cfg.mode = Mode.rotate_keys_only) ∧
      desiredState.enabled = "true" ∧ desiredState.name ≠ "" ∧
      (now - lastAttempt > 15 * 60 ∨ newAccount = true) ∧
      (fileExists = false ∨ cfg.allowDisableKeyRotationOverride = false ∨
        desiredState.disableKeyRotation = false) ∧
      currentState.fullServiceAccountName ≠ "" ∧
      now - lastRenewed > cfg.keyRotationAfterHours * 3600 then
    let stamped := if newAccount then currentState else { currentState with lastAttempt := some now }
    let pLock : Bool × List SAState :=
      if newAccount then (true, []) else persistSecret env.store stamped
    if pLock.1 then
      match env.createKey with
      | Except.error _ =>
        ⟨stamped, data, [IAMCall.createKey stamped.fullServiceAccountName], pLock.2⟩
      | Except.ok keyMaterial =>
        let renewed := { stamped with lastRenewed := some now, filename := filename }
        match keyMaterial with
        | none =>
          ⟨renewed, data, [IAMCall.createKey stamped.fullServiceAccountName], pLock.2⟩
        | some bytes =>
          let newData := dataInsert data filename bytes
          let pUpd := persistSecret env.store renewed
          ⟨renewed, newData, [IAMCall.createKey stamped.fullServiceAccountName],
            pLock.2 ++ pUpd.2⟩
    else
      ⟨stamped, data, [], pLock.2⟩
  else
    ⟨currentState, data, [], []⟩

/-- Result of the purge-keys sub-action. -/
structure PurgeResult where
  state : SAState
  iam : List IAMCall
  writes : List SAState
deriving DecidableEq, Repr

/-- Model of makeSecretChangesPurgeKeys (src/main.go lines 583 to 620).  All
its guards read the persisted current state except for the rotation-disable
override, which reads the desired state.  It stamps and persists the lease and
then asks the backend to purge keys older than the configured threshold. -/
def makeSecretChangesPurgeKeys (cfg : Config) (env : PassEnv)
    (desiredState currentState : SAState) (lastAttempt lastRenewed now : Int) :
    PurgeResult :=
  if (cfg.mode = Mode.normal ∨ cfg.mode = Mode.convenient ∨ cfg.mode = Mode.rotate_keys_only) ∧
      now - lastAttempt > 15 * 60 ∧
      currentState.enabled = "true" ∧
      currentState.lastRenewed ≠ none ∧
      now - lastRenewed > 2 * 3600 ∧
      currentState.fullServiceAccountName ≠ "" ∧
      (cfg.allowDisableKeyRotationOverride = false ∨ desiredState.disableKeyRotation = false) then
    let locked := { currentState with lastAttempt := some now }
    let pLock := persistSecret env.store locked
    if pLock.1 then
      ⟨locked, [IAMCall.purgeKeys locked.fullServiceAccountName cfg.purgeKeysAfterHours], pLock.2⟩
    else
      ⟨locked, [], pLock.2⟩
  else
    ⟨currentState, [], []⟩

/-- Result of one full reconciliation pass over one secret. -/
structure PassResult where
  state : SAState
  data : SecretData
  iam : List IAMCall
  writes : List SAState
deriving DecidableEq, Repr

/-- Model of makeSecretChanges (src/main.go lines 350 to 392): the two
timestamps are parsed once at the start of the pass, then the four sub-actions
run unconditionally in sequence, each observing the state mutations of the
previous ones; sub-action errors are logged and never abort the pass, which
always returns nil. -/
def makeSecretChanges (cfg : Config) (env : PassEnv)
    (desiredState currentState : SAState) (data : SecretData) (now : Int) :
    PassResult :=
  let lastRenewed := parseTimeField currentState.lastRenewed
  let lastAttempt := parseTimeField currentState.lastAttempt
  let g := makeSecretChangesGetOrCreateServiceAccount cfg env desiredState currentState
    lastAttempt now
  let permCalls := makeSecretChangesSetPermissions cfg desiredState g.state
    lastAttempt now g.created
  let r := makeSecretChangesRotateKeys cfg env desiredState g.state
    lastAttempt lastRenewed now g.created data
  let p := makeSecretChangesPurgeKeys cfg env desiredState r.state
    lastAttempt lastRenewed now
  ⟨p.state, r.data, g.iam ++ permCalls ++ r.iam ++ p.iam, g.writes ++ r.writes ++ p.writes⟩

/-- The annotations of a secret that the controller reads, one field per
annotation key of src/main.go.  Each field is none when the annotation is
absent.  disableKeyRotationAnn holds the parsed boolean (an unparseable value
behaves like an absent one, so both collapse to none); permissionsAnn holds
the unmarshalled permission list (an un-unmarshallable value collapses to
none); stateAnn holds the decoded state blob (an absent annotation and one
that fails to decode both collapse to none, exactly the two zero-state
branches of getCurrentSecretState).  The JSON codec that justifies the state
quotient is verified separately below. -/
structure SecretAnnotations where
  enabledAnn : Option String
  nameAnn : Option String
  filenameAnn : Option String
  disableKeyRotationAnn : Option Bool
  permissionsAnn : Option (List GCPServiceAccountPermission)
  stateAnn : Option SAState
deriving DecidableEq, Repr

/-- Model of getDesiredSecretState (src/main.go lines 286 to 328): each field
falls back to its documented default when the annotation is absent or
malformed. -/
def getDesiredSecretState (a : SecretAnnotations) : SAState :=
  { enabled := a.enabledAnn.getD "false"
    name := a.nameAnn.getD ""
    filename := a.filenameAnn.getD "service-account-key.json"
    disableKeyRotation := a.disableKeyRotationAnn.getD false
    permissions := a.permissionsAnn.getD []
    fullServiceAccountName := ""
    fullServiceAccountEmail := ""
    lastRenewed := none
    lastAttempt := none }

/-- Model of getCurrentSecretState (src/main.go lines 330 to 348): an absent
or undecodable state annotation yields the zero state. -/
def getCurrentSecretState (a : SecretAnnotations) : SAState :=
  a.stateAnn.getD SAState.zero

/-- A Kubernetes secret as the controller sees it: annotations is none when
the resource carries no annotation map at all. -/
structure SecretResource where
  annotations : Option SecretAnnotations
  data : SecretData
deriving DecidableEq, Repr

/-- Result of processing one secret event. -/
structure ProcessSecretResult where
  secret : SecretResource
  iam : List IAMCall
  writes : List SAState
  result : Except Unit Unit
deriving DecidableEq, Repr

/-- Model of processSecret (src/main.go lines 622 to 636): a secret without an
annotation map is skipped entirely; otherwise the desired and current states
are extracted and the full pass runs.  The in-memory annotation ends up
holding the state of the last updateSecret call of the pass, if any. -/
def processSecret (cfg : Config) (env : PassEnv) (secret : SecretResource)
    (now : Int) : ProcessSecretResult :=
  match secret.annotations with
  | none => ⟨secret, [], [], Except.ok ()⟩
  | some a =>
    let desiredState := getDesiredSecretState a
    let currentState := getCurrentSecretState a
    let r := makeSecretChanges cfg env desiredState currentState secret.data now
    let newAnn :=
      match r.writes.getLast? with
      | none => a
      | some w => { a with stateAnn := some w }
    ⟨⟨some newAnn, r.data⟩, r.iam, r.writes, Except.ok ()⟩

/-- Model of deleteSecret (src/main.go lines 638 to 663): only in normal or
convenient mode and only for a secret that still carries an annotation map,
the recorded cloud account, if any, is deleted via the backend; a backend
failure is returned as an error. -/
def deleteSecret (cfg : Config) (env : PassEnv) (secret : SecretResource) :
    Except Unit Unit × List IAMCall :=
  match secret.annotations with
  | none => (Except.ok (), [])
  | some a =>
    if cfg.mode = Mode.normal ∨ cfg.mode = Mode.convenient then
      let currentState := getCurrentSecretState a
      if currentState.fullServiceAccountName ≠ "" then
        match env.deleteAccount with
        | Except.error _ =>
          (Except.error (), [IAMCall.deleteAccount currentState.fullServiceAccountName])
        | Except.ok _ =>
          (Except.ok (), [IAMCall.deleteAccount currentState.fullServiceAccountName])
      else
        (Except.ok (), [])
    else
      (Except.ok (), [])

/-- The annotations of a Kubernetes service account that the controller reads
and writes, with the same quotient conventions as SecretAnnotations. -/
structure ServiceAccountAnnotations where
  enabledAnn : Option String
  nameAnn : Option String
  stateAnn : Option SAState
  workloadIdentityAnn : Option String
deriving DecidableEq, Repr

/-- A Kubernetes service account resource; annotations is none when the
resource carries no annotation map. -/
structure ServiceAccountResource where
  annotations : Option ServiceAccountAnnotations
deriving DecidableEq, Repr

/-- Model of getDesiredServiceAccountState (src/main.go lines 741 to 755):
only the enable flag and the logical name are read. -/
def getDesiredServiceAccountState (a : ServiceAccountAnnotations) : SAState :=
  { SAState.zero with
    enabled := a.enabledAnn.getD "false"
    name := a.nameAnn.getD "" }

/-- Model of getCurrentServiceAccountState (src/main.go lines 757 to 774): the
missing-annotation branch lacks a return in the source, but unmarshalling the
then-empty string fails and resets the state, so absent and undecodable
annotations both yield the zero state. -/
def getCurrentServiceAccountState (a : ServiceAccountAnnotations) : SAState :=
  a.stateAnn.getD SAState.zero

/-- Result of the service account reconciliation. -/
structure ServiceAccountChangesResult where
  state : SAState
  iam : List IAMCall
  writes : List SAState
  result : Except Unit Unit
deriving DecidableEq, Repr

/-- Model of makeServiceAccountChanges (src/main.go lines 776 to 826): a
single adopt-style sub-action gated on the lease and on the recorded email
being empty.  Both persist attempts go through updateServiceAccount, which
never reports a store failure, so only the display-name lookup can abort. -/
def makeServiceAccountChanges (cfg : Config) (env : PassEnv)
    (desiredState currentState : SAState) (now : Int) :
    ServiceAccountChangesResult :=
  let lastAttempt := parseTimeField currentState.lastAttempt
  if desiredState.enabled = "true" ∧ desiredState.name ≠ "" ∧
      now - lastAttempt > 15 * 60 ∧ currentState.fullServiceAccountEmail = "" then
    let locked := { currentState with lastAttempt := some now }
    let _u1 := updateServiceAccount env.store
    match env.getByDisplayName with
    | Except.error _ =>
      ⟨locked, [IAMCall.getByDisplayName desiredState.name], [locked], Except.error ()⟩
    | Except.ok fne =>
      let updated := { locked with
        enabled := desiredState.enabled
        name := desiredState.name
        fullServiceAccountName := fne.1
        fullServiceAccountEmail := fne.2 }
      let _u2 := updateServiceAccount env.store
      ⟨updated, [IAMCall.getByDisplayName desiredState.name], [locked, updated], Except.ok ()⟩
  else
    ⟨currentState, [], [], Except.ok ()⟩

/-- Result of processing one service account event. -/
structure ProcessServiceAccountResult where
  serviceAccount : ServiceAccountResource
  iam : List IAMCall
  writes : List SAState
  result : Except Unit Unit
deriving DecidableEq, Repr

/-- Model of processServiceAccount (src/main.go lines 828 to 840): a resource
without an annotation map is skipped entirely. -/
def processServiceAccount (cfg : Config) (env : PassEnv)
    (sa : ServiceAccountResource) (now : Int) : ProcessServiceAccountResult :=
  match sa.annotations with
  | none => ⟨sa, [], [], Except.ok ()⟩
  | some a =>
    let r := makeServiceAccountChanges cfg env
      (getDesiredServiceAccountState a) (getCurrentServiceAccountState a) now
    let newAnn :=
      match r.writes.getLast? with
      | none => a
      | some w =>
        { a with
          stateAnn := some w
          workloadIdentityAnn := some w.fullServiceAccountEmail }
    ⟨⟨some newAnn⟩, r.iam, r.writes, r.result⟩

/-! The Google Cloud IAM client.  The definitions below embed the current
service variant (src/unnamed/part_005, the one the current main.go links
against); the legacy two-result display-name lookup of
src/googleCloudIAMService.go is embedded separately at the end. -/

/-- Configuration of the IAM client: the governed project in which accounts
live and the local (cluster) project used for display names. -/
structure IAMServiceConfig where
  serviceAccountProjectID : String
  localProjectID : String
deriving DecidableEq, Repr

/-- Splitting a character list at the first occurrence of c: returns the
segment before c (which therefore does not contain c) and the remainder after
c, or none when c does not occur.  This is the semantics of a greedy
[^c]+ group followed by the literal c. -/
def splitAtChar (c : Char) : List Char → Option (List Char × List Char)
  | [] => none
  | x :: xs =>
    if x = c then some ([], xs)
    else
      match splitAtChar c xs with
      | none => none
      | some sr => some (x :: sr.1, sr.2)

/-- Matching a literal at the start of the input, returning the remainder. -/
def dropLiteral : List Char → List Char → Option (List Char)
  | [], rest => some rest
  | _ :: _, [] => none
  | l :: ls, x :: xs => if x = l then dropLiteral ls xs else none

/-- Structural decomposition of a full service account name against the
anchored pattern projects/P1/serviceAccounts/LOCAL@P2.SUFFIX used by
validateFullServiceAccountName (src/unnamed/part_005 lines 313 to 335).  The
four captured groups are nonempty; P1 contains no slash, LOCAL no at sign, P2
no dot, which is exactly how the greedy negated character classes of the
source regular expression split the input. -/
def matchFullServiceAccountName (s : String) :
    Option (String × String × String × String) :=
  match dropLiteral "projects/".toList s.toList with
  | none => none
  | some r0 =>
    match splitAtChar '/' r0 with
    | none => none
    | some pr =>
      if pr.1 = [] then none
      else
        match dropLiteral "serviceAccounts/".toList pr.2 with
        | none => none
        | some r2 =>
          match splitAtChar '@' r2 with
          | none => none
          | some lr =>
            if lr.1 = [] then none
            else
              match splitAtChar '.' lr.2 with
              | none => none
              | some ps =>
                if ps.1 = [] ∨ ps.2 = [] then none
                else some (String.mk pr.1, String.mk lr.1, String.mk ps.1, String.mk ps.2)

/-- Model of validateFullServiceAccountName (src/unnamed/part_005 lines 313 to
335): the name must decompose structurally and both project groups must equal
the governed project of this controller. -/
def validateFullServiceAccountName (cfg : IAMServiceConfig)
    (fullServiceAccountName : String) : Bool :=
  match matchFullServiceAccountName fullServiceAccountName with
  | none => false
  | some g =>
    (g.1 == cfg.serviceAccountProjectID) && (g.2.2.1 == cfg.serviceAccountProjectID)

/-- Model of validateDisplayName (src/unnamed/part_005 lines 338 to 355): the
display name must match LOCALPROJECT/NAME with both parts nonempty and the
first part equal to the local project id. -/
def validateDisplayName (cfg : IAMServiceConfig) (displayName : String) : Bool :=
  match splitAtChar '/' displayName.toList with
  | none => false
  | some pr =>
    if pr.1 = [] ∨ pr.2 = [] then false
    else String.mk pr.1 == cfg.localProjectID

/-- Calls the IAM client issues against the Google Cloud API. -/
inductive BackendCall where
  | getAccount (fullServiceAccountName : String)
  | listKeys (fullServiceAccountName : String)
  | createKey (fullServiceAccountName : String)
  | deleteKey (keyName : String)
  | deleteAccount (fullServiceAccountName : String)
deriving DecidableEq, Repr

/-- A call that mutates cloud state, as opposed to a read. -/
def BackendCall.isMutation : BackendCall → Bool
  | BackendCall.createKey _ => true
  | BackendCall.deleteKey _ => true
  | BackendCall.deleteAccount _ => true
  | _ => false

/-- A service account key record.  validAfterTime is the parsed creation
timestamp; none models an empty ValidAfterTime (the loop skips such keys, and
an empty string also sorts below every RFC3339 timestamp, matching the model
order below; nonempty unparseable timestamps are outside the claims). -/
structure SAKey where
  name : String
  validAfterTime : Option Int
deriving DecidableEq, Repr

/-- What a Get of an account returns; only the display name is consulted. -/
structure IAMAccountInfo where
  displayName : String
deriving DecidableEq, Repr

/-- Responses of the Google Cloud API.  getAccount returning none covers both
a call error and a nil account, which validateServiceAccount treats alike. -/
structure IAMBackend where
  getAccount : String → Option IAMAccountInfo
  createKeyResult : String → Except Unit SAKey
  listKeysResult : String → Except Unit (List SAKey)
  deleteKeyStatus : String → Except Unit Int
  deleteAccountStatus : String → Except Unit Int

/-- Model of validateServiceAccount (src/unnamed/part_005 lines 290 to 310):
structural validation first (no backend call on failure), then a Get of the
account and a check of its display name. -/
def validateServiceAccount (cfg : IAMServiceConfig) (backend : IAMBackend)
    (fullServiceAccountName : String) : Bool × List BackendCall :=
  if validateFullServiceAccountName cfg fullServiceAccountName then
    match backend.getAccount fullServiceAccountName with
    | none => (false, [BackendCall.getAccount fullServiceAccountName])
    | some account =>
      (validateDisplayName cfg account.displayName,
        [BackendCall.getAccount fullServiceAccountName])
  else
    (false, [])

/-- Model of CreateServiceAccountKey (src/unnamed/part_005 lines 176 to 188):
refuses with an error, before any key creation call, when the ownership
validation fails. -/
def CreateServiceAccountKey (cfg : IAMServiceConfig) (backend : IAMBackend)
    (fullServiceAccountName : String) : Except Unit SAKey × List BackendCall :=
  let v := validateServiceAccount cfg backend fullServiceAccountName
  if v.1 then
    match backend.createKeyResult fullServiceAccountName with
    | Except.error _ =>
      (Except.error (), v.2 ++ [BackendCall.createKey fullServiceAccountName])
    | Except.ok k => (Except.ok k, v.2 ++ [BackendCall.createKey fullServiceAccountName])
  else
    (Except.error (), v.2)

/-- Model of listServiceAccountKeys (src/unnamed/part_005 lines 190 to 205):
also guarded by the ownership validation. -/
def listServiceAccountKeys (cfg : IAMServiceConfig) (backend : IAMBackend)
    (fullServiceAccountName : String) :
    Except Unit (List SAKey) × List BackendCall :=
  let v := validateServiceAccount cfg backend fullServiceAccountName
  if v.1 then
    match backend.listKeysResult fullServiceAccountName with
    | Except.error _ =>
      (Except.error (), v.2 ++ [BackendCall.listKeys fullServiceAccountName])
    | Except.ok keys => (Except.ok keys, v.2 ++ [BackendCall.listKeys fullServiceAccountName])
  else
    (Except.error (), v.2)

/-- Model of deleteServiceAccountKey (src/unnamed/part_005 lines 255 to 268):
the key deletion call is issued directly for whatever key record is passed in,
with no validation of its own; the key counts as deleted when the response
status is 200. -/
def deleteServiceAccountKey (backend : IAMBackend) (serviceAccountKey : SAKey) :
    Except Unit Bool × List BackendCall :=
  match backend.deleteKeyStatus serviceAccountKey.name with
  | Except.error _ => (Except.error (), [BackendCall.deleteKey serviceAccountKey.name])
  | Except.ok status =>
    (Except.ok (status == 200), [BackendCall.deleteKey serviceAccountKey.name])

/-- Model of DeleteServiceAccount (src/unnamed/part_005 lines 271 to 287):
refuses with an error, before any deletion call, when the ownership validation
fails. -/
def DeleteServiceAccount (cfg : IAMServiceConfig) (backend : IAMBackend)
    (fullServiceAccountName : String) : Except Unit Bool × List BackendCall :=
  let v := validateServiceAccount cfg backend fullServiceAccountName
  if v.1 then
    match backend.deleteAccountStatus fullServiceAccountName with
    | Except.error _ =>
      (Except.error (), v.2 ++ [BackendCall.deleteAccount fullServiceAccountName])
    | Except.ok status =>
      (Except.ok (status == 200), v.2 ++ [BackendCall.deleteAccount fullServiceAccountName])
  else
    (Except.error (), v.2)

/-- View of a key creation timestamp in the order the purge loop sorts by.
The source compares the RFC3339 ValidAfterTime strings; on parseable
timestamps of the uniform Google format the string order agrees with the
chronological order, and the empty string sorts below every timestamp, which
is the bottom element here. -/
def vatOrd (x : Option Int) : WithBot Int := x

/-- The descending sort relation of the purge loop: a comes before b when the
creation time of b is at most that of a (newest first). -/
def keyNewerEq (a b : SAKey) : Prop :=
  vatOrd b.validAfterTime ≤ vatOrd a.validAfterTime

instance : DecidableRel keyNewerEq := fun a b =>
  inferInstanceAs (Decidable (vatOrd b.validAfterTime ≤ vatOrd a.validAfterTime))

instance : IsTotal SAKey keyNewerEq :=
  ⟨fun a b => le_total (vatOrd b.validAfterTime) (vatOrd a.validAfterTime)⟩

instance : IsTrans SAKey keyNewerEq :=
  ⟨fun _ _ _ hab hbc => le_trans hbc hab⟩

/-- The age test of the purge loop (src/unnamed/part_005 lines 222 to 247): a
key with an empty (or unparseable) creation timestamp is skipped; otherwise
the key qualifies when its age exceeds the purge threshold in hours. -/
def keyOldEnough (now purgeKeysAfterHours : Int) (k : SAKey) : Bool :=
  match k.validAfterTime with
  | none => false
  | some t => decide (now - t > purgeKeysAfterHours * 3600)

/-- The key selection of PurgeServiceAccountKeys (src/unnamed/part_005 lines
208 to 252): when the account has more than one key, the keys are sorted
newest first, the newest is skipped, and every remaining key that is old
enough is deleted. -/
def purgeSelection (keys : List SAKey) (now purgeKeysAfterHours : Int) :
    List SAKey :=
  if 1 < keys.length then
    (List.insertionSort keyNewerEq keys).tail.filter (keyOldEnough now purgeKeysAfterHours)
  else
    []

/-- Model of PurgeServiceAccountKeys (src/unnamed/part_005 lines 208 to 252):
list the keys (which validates ownership), then delete the selected keys,
counting the ones whose deletion returned status 200.  The leak of a stale
parse error into the named error result on exit is immaterial to the claims
and not modelled. -/
def PurgeServiceAccountKeys (cfg : IAMServiceConfig) (backend : IAMBackend)
    (fullServiceAccountName : String) (purgeKeysAfterHours now : Int) :
    Except Unit Int × List BackendCall :=
  let l := listServiceAccountKeys cfg backend fullServiceAccountName
  match l.1 with
  | Except.error _ => (Except.error (), l.2)
  | Except.ok keys =>
    let targets := purgeSelection keys now purgeKeysAfterHours
    let deleteCount := (targets.filter (fun k =>
      match backend.deleteKeyStatus k.name with
      | Except.ok s => s == 200
      | Except.error _ => false)).length
    (Except.ok (deleteCount : Int), l.2 ++ targets.map (fun k => BackendCall.deleteKey k.name))

/-- A service account as returned by the List call of the API. -/
structure IAMListedAccount where
  name : String
  email : String
  displayName : String
  uniqueId : String
deriving DecidableEq, Repr

/-- Lexicographic order on character lists, the order Go uses to compare
strings byte-wise (identical for the ASCII unique ids at hand). -/
def charListLe : List Char → List Char → Bool
  | [], _ => true
  | _ :: _, [] => false
  | a :: as, b :: bs => if a = b then charListLe as bs else decide (a < b)

/-- The Go string order on strings. -/
def strLeb (a b : String) : Bool := charListLe a.toList b.toList

/-- The lexicographic order on character lists is total. -/
theorem charListLe_total : ∀ xs ys : List Char,
    charListLe xs ys = true ∨ charListLe ys xs = true := by
  intro xs
  induction xs with
  | nil => intro ys; left; rfl
  | cons a as ih =>
    intro ys
    cases ys with
    | nil => right; rfl
    | cons b bs =>
      by_cases hab : a = b
      · subst hab
        simp only [charListLe, if_pos rfl]
        exact ih bs
      · rcases lt_trichotomy a b with h | h | h
        · left
          simp [charListLe, hab, h]
        · exact absurd h hab
        · right
          have hba : ¬ b = a := fun hh => hab hh.symm
          simp [charListLe, hba, h]

/-- The lexicographic order on character lists is transitive. -/
theorem charListLe_trans : ∀ xs ys zs : List Char,
    charListLe xs ys = true → charListLe ys zs = true → charListLe xs zs = true := by
  intro xs
  induction xs with
  | nil => intro ys zs _ _; rfl
  | cons a as ih =>
    intro ys zs h1 h2
    cases ys with
    | nil => exact absurd h1 (by simp [charListLe])
    | cons b bs =>
      cases zs with
      | nil => exact absurd h2 (by simp [charListLe])
      | cons c cs =>
        by_cases hab : a = b <;> by_cases hbc : b = c
        · subst hab; subst hbc
          simp only [charListLe, if_pos rfl] at h1 h2 ⊢
          exact ih bs cs h1 h2
        · subst hab
          simp only [charListLe, if_pos rfl, if_neg hbc] at h2 ⊢
          exact h2
        · subst hbc
          simp only [charListLe, if_pos rfl, if_neg hab] at h1 ⊢
          exact h1
        · simp only [charListLe, if_neg hab, if_neg hbc, decide_eq_true_eq] at h1 h2
          have hac : a ≠ c := fun he => absurd (he ▸ h1) (lt_asymm h2)
          simp only [charListLe, if_neg hac, decide_eq_true_eq]
          exact lt_trans h1 h2

/-- The descending sort relation of the display-name lookup: a comes before b
when the unique id of b is at most that of a in the Go string order (the
source compares the UniqueId strings, not their numeric values). -/
def accountUidGE (a b : IAMListedAccount) : Prop :=
  strLeb b.uniqueId a.uniqueId = true

instance : DecidableRel accountUidGE := fun a b =>
  inferInstanceAs (Decidable (strLeb b.uniqueId a.uniqueId = true))

instance : IsTotal IAMListedAccount accountUidGE :=
  ⟨fun a b => charListLe_total b.uniqueId.toList a.uniqueId.toList⟩

instance : IsTrans IAMListedAccount accountUidGE :=
  ⟨fun _ _ _ hab hbc => charListLe_trans _ _ _ hbc hab⟩

/-- Reading of a decimal digit string as a number, for stating which unique id
is numerically largest. -/
def digitsToNat (s : String) : Nat :=
  s.toList.foldl (fun acc c => acc * 10 + (c.toNat - 48)) 0

/-- The display-name component of getServiceAccountIDAndDisplayName
(src/unnamed/part_005 lines 149 to 173): names shorter than 5 or longer than
69 characters are rejected; otherwise the display name is the local project id
followed by a slash and the full logical name.  The account id component,
which involves the random suffix source, is not consulted by the display-name
lookup and is not modelled. -/
def generatedDisplayName (cfg : IAMServiceConfig) (name : String) :
    Except Unit String :=
  if name.length < 5 then Except.error ()
  else if 69 < name.length then Except.error ()
  else Except.ok (cfg.localProjectID ++ "/" ++ name)

/-- Model of GetServiceAccountByDisplayName (src/unnamed/part_005 lines 94 to
146), with the page loop aggregated into the given account list: filter by
exact display-name match, sort the matches by unique id descending, and return
the name and email of the first match; the not-found error is returned when
there is no match. -/
def GetServiceAccountByDisplayName (cfg : IAMServiceConfig)
    (accounts : List IAMListedAccount) (name : String) :
    Except Unit (String × String) :=
  match generatedDisplayName cfg name with
  | Except.error _ => Except.error ()
  | Except.ok displayName =>
    let matching := accounts.filter (fun sa => sa.displayName == displayName)
    match List.insertionSort accountUidGE matching with
    | [] => Except.error ()
    | best :: _ => Except.ok (best.name, best.email)

/-- Model of the legacy two-result GetServiceAccountByDisplayName
(src/googleCloudIAMService.go lines 85 to 118).  The display name there is the
configured account prefix, a dash, and the logical name.  The source sorts the
matches and assigns the name of the best one to the named result, but the
assignment is dead: control falls through to the unconditional not-found
return at the end of the function, so the call always returns an error. -/
def GetServiceAccountByDisplayNameLegacy (saPrefixToken : String)
    (accounts : List IAMListedAccount) (name : String) : Except Unit String :=
  if name.length < 3 then Except.error ()
  else
    let displayName := saPrefixToken ++ "-" ++ name
    let matching := accounts.filter (fun sa => sa.displayName == displayName)
    let _picked :=
      match List.insertionSort accountUidGE matching with
      | [] => ""
      | best :: _ => best.name
    Except.error ()

/-! The state annotation codec.  The Go code serializes the
GCPServiceAccountState struct with encoding/json and deserializes it with
json.Unmarshal; the JSON text layer of the standard library is external, so
the codec is embedded at the level of a JSON syntax tree. -/

/-- A JSON value. -/
inductive Json where
  | null
  | bool (b : Bool)
  | num (n : Int)
  | str (s : String)
  | arr (items : List Json)
  | obj (fields : List (String × Json))

/-- The GCPServiceAccountState struct of src/main.go lines 40 to 51 with its
raw string timestamp fields, as the annotation codec sees it.  Field names
follow the Go struct. -/
structure GCPServiceAccountState where
  Enabled : String
  Name : String
  Filename : String
  DisableKeyRotation : Bool
  FullServiceAccountName : String
  FullServiceAccountEmail : String
  Permissions : List GCPServiceAccountPermission
  LastRenewed : String
  LastAttempt : String
deriving DecidableEq, Repr

/-- The zero value of the Go struct. -/
def GCPServiceAccountState.zero : GCPServiceAccountState :=
  ⟨"", "", "", false, "", "", [], "", ""⟩

/-- Serialization of one permission per its json tags. -/
def marshalPermission (p : GCPServiceAccountPermission) : Json :=
  Json.obj [("project", Json.str p.project), ("role", Json.str p.role)]

/-- Serialization of the state struct per its json tags: the filename and
permissions fields carry omitempty and are dropped when empty; all other
fields are always present, in declaration order. -/
def marshalState (s : GCPServiceAccountState) : Json :=
  Json.obj
    ([("enabled", Json.str s.Enabled), ("name", Json.str s.Name)]
      ++ (if s.Filename = "" then [] else [("filename", Json.str s.Filename)])
      ++ [("disableKeyRotation", Json.bool s.DisableKeyRotation),
          ("fullServiceAccountName", Json.str s.FullServiceAccountName),
          ("fullServiceAccountEmail", Json.str s.FullServiceAccountEmail)]
      ++ (if s.Permissions = [] then []
          else [("permissions", Json.arr (s.Permissions.map marshalPermission))])
      ++ [("lastRenewed", Json.str s.LastRenewed), ("lastAttempt", Json.str s.LastAttempt)])

/-- Lookup of an object field by key.  json.Unmarshal matches keys exactly
before falling back to a case-insensitive match and lets the last duplicate
win; the encoder above emits exact unique keys, so the plain first-match
lookup is adequate. -/
def lookupField (fields : List (String × Json)) (key : String) : Option Json :=
  (fields.find? (fun f => f.1 == key)).map (fun f => f.2)

/-- Decoding of a string-typed struct field: an absent field or a JSON null
leaves the zero value; a value of any other type is a decode error. -/
def readString (fields : List (String × Json)) (key : String) : Option String :=
  match lookupField fields key with
  | none => some ""
  | some Json.null => some ""
  | some (Json.str s) => some s
  | some _ => none

/-- Decoding of a bool-typed struct field, with the same conventions. -/
def readBool (fields : List (String × Json)) (key : String) : Option Bool :=
  match lookupField fields key with
  | none => some false
  | some Json.null => some false
  | some (Json.bool b) => some b
  | some _ => none

/-- Decoding of one permission element: a null element leaves a zero
permission, as json.Unmarshal does for a struct slot. -/
def unmarshalPermission : Json → Option GCPServiceAccountPermission
  | Json.null => some ⟨"", ""⟩
  | Json.obj fields =>
    match readString fields "project", readString fields "role" with
    | some project, some role => some ⟨project, role⟩
    | _, _ => none
  | _ => none

/-- Decoding of a permission array elementwise. -/
def unmarshalPermissions : List Json → Option (List GCPServiceAccountPermission)
  | [] => some []
  | j :: rest =>
    match unmarshalPermission j, unmarshalPermissions rest with
    | some p, some ps => some (p :: ps)
    | _, _ => none

/-- Decoding of the slice-typed permissions field: absent or null leaves the
zero (empty) slice. -/
def readPermissionsField (fields : List (String × Json)) :
    Option (List GCPServiceAccountPermission) :=
  match lookupField fields "permissions" with
  | none => some []
  | some Json.null => some []
  | some (Json.arr items) => unmarshalPermissions items
  | some _ => none

/-- Deserialization of the state struct: the value must be an object (or a
JSON null, which json.Unmarshal accepts and which leaves the zero struct);
every known field present must have the declared type; unknown fields are
ignored by the field lookups. -/
def unmarshalState : Json → Option GCPServiceAccountState
  | Json.null => some GCPServiceAccountState.zero
  | Json.obj fields =>
    match readString fields "enabled", readString fields "name",
        readString fields "filename", readBool fields "disableKeyRotation",
        readString fields "fullServiceAccountName",
        readString fields "fullServiceAccountEmail",
        readPermissionsField fields,
        readString fields "lastRenewed", readString fields "lastAttempt" with
    | some e, some n, some f, some d, some fn, some fe, some ps, some lr, some la =>
      some ⟨e, n, f, d, fn, fe, ps, lr, la⟩
    | _, _, _, _, _, _, _, _, _ => none
  | _ => none

/-- The state decode of getCurrentSecretState (src/main.go lines 330 to 348)
at the annotation level: an absent annotation (or annotation text that is not
JSON at all, which the external text parser rejects) is none and yields the
zero struct; a present JSON value that fails to unmarshal into the state shape
also yields the zero struct, without an error in either case. -/
def getCurrentSecretStateCodec (stateAnnValue : Option Json) :
    GCPServiceAccountState :=
  match stateAnnValue with
  | none => GCPServiceAccountState.zero
  | some j =>
    match unmarshalState j with
    | none => GCPServiceAccountState.zero
    | some s => s

/-! Theorems. -/

/-- Decoding a marshalled permission list recovers the list. -/
theorem unmarshalPermissions_map (ps : List GCPServiceAccountPermission) :
    unmarshalPermissions (ps.map marshalPermission) = some ps := by
  induction ps with
  | nil => rfl
  | cons p rest ih =>
    simp [marshalPermission, unmarshalPermission, unmarshalPermissions, readString,
      lookupField, ih]

/-- C8: decoding the JSON value produced by encoding any PersistedState value
yields that same state, Filename and Permissions fields included; and decoding
an absent state annotation, or one whose value does not fit the state shape,
yields the zero-value state without an error. -/
theorem C8_codec_roundtrip :
    (∀ s : GCPServiceAccountState, unmarshalState (marshalState s) = some s) ∧
    getCurrentSecretStateCodec none = GCPServiceAccountState.zero ∧
    getCurrentSecretStateCodec (some (Json.num 5)) = GCPServiceAccountState.zero := by
  refine ⟨?_, rfl, rfl⟩
  intro s
  obtain ⟨e, n, f, d, fn, fe, ps, lr, la⟩ := s
  by_cases hf : f = "" <;> by_cases hp : ps = [] <;>
    simp [marshalState, unmarshalState, readString, readBool, readPermissionsField,
      lookupField, hf, hp, unmarshalPermissions_map]

/-- C9 counterexample: the ServiceAccount variant of the persist gateway
returns success and performs no re-fetch even when the store rejects the
update, because the source discards the result of the Update call. -/
theorem C9_counterexample :
    (StoreEnv.mk true true false true).updateServiceAccountOk = false ∧
    updateServiceAccount (StoreEnv.mk true true false true) =
      (Except.ok (), [StoreCall.updateServiceAccount]) :=
  ⟨rfl, rfl⟩

/-- C9 amended: the Secret variant of the persist gateway issues the update
and then the re-fetch and surfaces a failure of either step as an error, while
the ServiceAccount variant issues only the update, discards its result, never
re-fetches and always returns success. -/
theorem C9_persist_gateway :
    ∀ env : StoreEnv,
      ((updateSecret env).1 = Except.ok () ↔
        env.updateSecretOk = true ∧ env.getSecretOk = true) ∧
      (updateSecret env).2 =
        StoreCall.updateSecret ::
          (if env.updateSecretOk then [StoreCall.getSecret] else []) ∧
      updateServiceAccount env = (Except.ok (), [StoreCall.updateServiceAccount]) := by
  intro env
  cases h1 : env.updateSecretOk <;> cases h2 : env.getSecretOk <;>
    simp [updateSecret, updateServiceAccount, h1, h2]

/-- C10: a Secret or ServiceAccount whose annotation map is nil is skipped
entirely: processing it, and the deletion path for a deleted Secret, performs
no IAM call, no store write, returns the resource unchanged and reports no
error. -/
theorem C10_nil_annotations (cfg : Config) (env : PassEnv)
    (secret : SecretResource) (sa : ServiceAccountResource) (now : Int)
    (hs : secret.annotations = none) (ha : sa.annotations = none) :
    processSecret cfg env secret now = ⟨secret, [], [], Except.ok ()⟩ ∧
    processServiceAccount cfg env sa now = ⟨sa, [], [], Except.ok ()⟩ ∧
    deleteSecret cfg env secret = (Except.ok (), []) := by
  refine ⟨?_, ?_, ?_⟩
  · simp [processSecret, hs]
  · simp [processServiceAccount, ha]
  · simp [deleteSecret, hs]

/-- C10 witness: the skip of an annotation-free secret and service account,
evaluated at a concrete resource pair. -/
theorem C10_witness :
    processSecret ⟨Mode.normal, false, 24, 168⟩
        ⟨⟨true, true, true, true⟩, Except.error (), Except.error (), Except.error (),
          Except.error (), Except.error ()⟩ ⟨none, []⟩ 0 =
      ⟨⟨none, []⟩, [], [], Except.ok ()⟩ ∧
    processServiceAccount ⟨Mode.normal, false, 24, 168⟩
        ⟨⟨true, true, true, true⟩, Except.error (), Except.error (), Except.error (),
          Except.error (), Except.error ()⟩ ⟨none⟩ 0 =
      ⟨⟨none⟩, [], [], Except.ok ()⟩ ∧
    deleteSecret ⟨Mode.normal, false, 24, 168⟩
        ⟨⟨true, true, true, true⟩, Except.error (), Except.error (), Except.error (),
          Except.error (), Except.error ()⟩ ⟨none, []⟩ =
      (Except.ok (), []) :=
  C10_nil_annotations _ _ _ _ _ rfl rfl

/-- Concrete fixture: a convenient-mode configuration. -/
def cfgConvenient : Config := ⟨Mode.convenient, false, 24, 168⟩

/-- Concrete fixture: a desired state asking for one permission. -/
def desiredWithPerm : SAState :=
  { SAState.zero with
    enabled := "true"
    name := "myapp"
    permissions := [⟨"my-proj", "roles/editor"⟩] }

/-- Concrete fixture: a current state with a recorded cloud account and no
recorded permissions. -/
def currentWithAccount : SAState :=
  { SAState.zero with
    enabled := "true"
    name := "myapp"
    fullServiceAccountName :=
      "projects/my-proj/serviceAccounts/myapp-abcd@my-proj.iam.gserviceaccount.com" }

/-- C3: evaluation of the Set-Permissions guard at an input satisfying every
condition of the claim, with the cloud account recorded (non-empty
fullServiceAccountName) and the permission counts differing: the sub-action
does nothing, because the source guard requires fullServiceAccountName to be
the empty string; conversely, with no recorded account the sub-action fires
and delegates to the backend with the empty account name. -/
theorem C3_guard_mismatch :
    makeSecretChangesSetPermissions cfgConvenient desiredWithPerm currentWithAccount 0 10000 false
      = [] ∧
    currentWithAccount.fullServiceAccountName ≠ "" ∧
    currentWithAccount.permissions.length ≠ desiredWithPerm.permissions.length ∧
    makeSecretChangesSetPermissions cfgConvenient desiredWithPerm
        { currentWithAccount with fullServiceAccountName := "" } 0 10000 false
      = [IAMCall.setRoleBinding "" desiredWithPerm.permissions] := by
  refine ⟨?_, by decide, by decide, ?_⟩ <;> decide

/-- The adopt-or-create sub-action no-ops when enabling, naming, the lease or
the absence of a recorded account fails, whatever the mode. -/
theorem getOrCreate_skip (cfg : Config) (env : PassEnv) (d c : SAState)
    (la now : Int)
    (h : ¬(d.enabled = "true" ∧ d.name ≠ "" ∧ now - la > 15 * 60 ∧
      c.fullServiceAccountName = "")) :
    makeSecretChangesGetOrCreateServiceAccount cfg env d c la now =
      ⟨false, c, [], []⟩ := by
  have h1 : ¬(cfg.mode = Mode.rotate_keys_only ∧ d.enabled = "true" ∧ d.name ≠ "" ∧
      now - la > 15 * 60 ∧ c.fullServiceAccountName = "") :=
    fun hh => h ⟨hh.2.1, hh.2.2.1, hh.2.2.2.1, hh.2.2.2.2⟩
  have h2 : ¬((cfg.mode = Mode.normal ∨ cfg.mode = Mode.convenient) ∧ d.enabled = "true" ∧
      d.name ≠ "" ∧ now - la > 15 * 60 ∧ c.fullServiceAccountName = "") :=
    fun hh => h ⟨hh.2.1, hh.2.2.1, hh.2.2.2.1, hh.2.2.2.2⟩
  unfold makeSecretChangesGetOrCreateServiceAccount
  rw [if_neg h1, if_neg h2]

/-- The set-permissions sub-action no-ops when enabling, naming, or the lease
together with the new-account override fails. -/
theorem setPermissions_skip (cfg : Config) (d c : SAState) (la now : Int)
    (na : Bool)
    (h : ¬(d.enabled = "true" ∧ d.name ≠ "" ∧ (now - la > 15 * 60 ∨ na = true))) :
    makeSecretChangesSetPermissions cfg d c la now na = [] := by
  unfold makeSecretChangesSetPermissions
  rw [if_neg]
  intro hh
  exact h ⟨hh.2.1, hh.2.2.1, hh.2.2.2.1⟩

/-- The rotate-keys sub-action no-ops when enabling, naming, the lease with
the new-account override, or the rotation interval fails. -/
theorem rotateKeys_skip (cfg : Config) (env : PassEnv) (d c : SAState)
    (la lr now : Int) (na : Bool) (data : SecretData)
    (h : ¬(d.enabled = "true" ∧ d.name ≠ "" ∧ (now - la > 15 * 60 ∨ na = true) ∧
      now - lr > cfg.keyRotationAfterHours * 3600)) :
    makeSecretChangesRotateKeys cfg env d c la lr now na data = ⟨c, data, [], []⟩ := by
  simp only [makeSecretChangesRotateKeys]
  rw [if_neg]
  intro hh
  exact h ⟨hh.2.1, hh.2.2.1, hh.2.2.2.1, hh.2.2.2.2.2.2⟩

/-- The purge-keys sub-action no-ops when the lease is held. -/
theorem purgeKeys_skip (cfg : Config) (env : PassEnv) (d c : SAState)
    (la lr now : Int) (h : ¬ now - la > 15 * 60) :
    makeSecretChangesPurgeKeys cfg env d c la lr now = ⟨c, [], []⟩ := by
  unfold makeSecretChangesPurgeKeys
  rw [if_neg]
  intro hh
  exact h hh.2.1

/-- Whatever the purge-keys sub-action does, every IAM call it makes is a
purge call. -/
theorem purgeKeys_iam_only_purge (cfg : Config) (env : PassEnv) (d c : SAState)
    (la lr now : Int) :
    ((makeSecretChangesPurgeKeys cfg env d c la lr now).iam.all
      IAMCall.isPurgeKeys) = true := by
  simp only [makeSecretChangesPurgeKeys]
  split
  · split
    · rfl
    · rfl
  · rfl

/-- C2: while the lease is held, a full pass is a complete no-op: if the
persisted lastAttempt parses to T and the pass runs at a time before T plus 15
minutes, the pass performs no IAM call at all, writes nothing to the store and
leaves the state and data untouched.  In particular the adopt-or-create
sub-action reports no new account, so the newAccount override of the
set-permissions and rotate-keys guards stays disabled within the pass.  The
pass is modelled at one instant, so all guards see the same clock value. -/
theorem C2_lease_blocks_pass (cfg : Config) (env : PassEnv) (d c : SAState)
    (data : SecretData) (tAttempt now : Int)
    (hT : c.lastAttempt = some tAttempt) (hlt : now < tAttempt + 15 * 60) :
    makeSecretChanges cfg env d c data now = ⟨c, data, [], []⟩ := by
  have hpf : parseTimeField c.lastAttempt = tAttempt := by rw [hT]; rfl
  have hlease : ¬ now - tAttempt > 15 * 60 := by omega
  have hg := getOrCreate_skip cfg env d c tAttempt now (fun hh => hlease hh.2.2.1)
  have hs := setPermissions_skip cfg d c tAttempt now false
    (fun hh => by rcases hh.2.2 with h | h; exact hlease h; exact Bool.false_ne_true h)
  have hr := rotateKeys_skip cfg env d c tAttempt (parseTimeField c.lastRenewed) now false data
    (fun hh => by rcases hh.2.2.1 with h | h; exact hlease h; exact Bool.false_ne_true h)
  have hp := purgeKeys_skip cfg env d c tAttempt (parseTimeField c.lastRenewed) now hlease
  simp only [makeSecretChanges, hpf, hg, hs, hr, hp, List.nil_append, List.append_nil]

/-- C2 witness: the lease no-op evaluated at a concrete pass that starts 500
seconds after the stamped attempt. -/
theorem C2_witness :
    makeSecretChanges cfgConvenient
        ⟨⟨true, true, true, true⟩, Except.error (), Except.error (), Except.error (),
          Except.error (), Except.error ()⟩
        desiredWithPerm { currentWithAccount with lastAttempt := some 1000 } [] 1500 =
      ⟨{ currentWithAccount with lastAttempt := some 1000 }, [], [], []⟩ :=
  C2_lease_blocks_pass _ _ _ _ _ 1000 1500 rfl (by decide)

/-- Concrete fixture: a normal-mode configuration with a 24 hour rotation
interval and a 24 hour purge threshold. -/
def cfgNormal : Config := ⟨Mode.normal, false, 24, 24⟩

/-- Concrete fixture: a pass environment where the store accepts everything
and the backend only answers the purge call. -/
def envPurgeOnly : PassEnv :=
  ⟨⟨true, true, true, true⟩, Except.error (), Except.error (), Except.error (),
    Except.ok 0, Except.ok true⟩

/-- Concrete fixture: a desired state that disables provisioning. -/
def desiredDisabled : SAState := { SAState.zero with enabled := "false" }

/-- Concrete fixture: a persisted current state recording an enabled account
whose last renewal is far in the past. -/
def currentStale : SAState :=
  { SAState.zero with
    enabled := "true"
    name := "myapp"
    fullServiceAccountName :=
      "projects/my-proj/serviceAccounts/myapp-abcd@my-proj.iam.gserviceaccount.com"
    lastRenewed := some 0 }

/-- C1 counterexample: a resource whose desired state is disabled still
triggers an IAM backend call in a full pass, because the purge-keys guard
reads only the persisted current state. -/
theorem C1_counterexample :
    desiredDisabled.enabled = "false" ∧
    (makeSecretChanges cfgNormal envPurgeOnly desiredDisabled currentStale [] 1000000).iam =
      [IAMCall.purgeKeys
        "projects/my-proj/serviceAccounts/myapp-abcd@my-proj.iam.gserviceaccount.com" 24] := by
  constructor
  · rfl
  · decide

/-- C1 amended: for a resource whose desired state is disabled or unnamed,
the adopt-or-create, set-permissions and rotate-keys sub-actions make no IAM
call, so every IAM call of a full pass, if any, is a purge-keys call driven by
the persisted current state. -/
theorem C1_disabled_only_purge (cfg : Config) (env : PassEnv) (d c : SAState)
    (data : SecretData) (now : Int) (h : d.enabled ≠ "true" ∨ d.name = "") :
    ((makeSecretChanges cfg env d c data now).iam.all IAMCall.isPurgeKeys) = true := by
  have hne : ¬(d.enabled = "true" ∧ d.name ≠ "") := by
    rcases h with h | h
    · exact fun hh => h hh.1
    · exact fun hh => hh.2 h
  have hg := getOrCreate_skip cfg env d c (parseTimeField c.lastAttempt) now
    (fun hh => hne ⟨hh.1, hh.2.1⟩)
  have hs := setPermissions_skip cfg d c (parseTimeField c.lastAttempt) now false
    (fun hh => hne ⟨hh.1, hh.2.1⟩)
  have hr := rotateKeys_skip cfg env d c (parseTimeField c.lastAttempt)
    (parseTimeField c.lastRenewed) now false data (fun hh => hne ⟨hh.1, hh.2.1⟩)
  simp only [makeSecretChanges, hg, hs, hr, List.nil_append, List.append_nil]
  exact purgeKeys_iam_only_purge cfg env d c (parseTimeField c.lastAttempt)
    (parseTimeField c.lastRenewed) now

/-- C1 witness: the amended statement applied to the counterexample input. -/
theorem C1_witness :
    ((makeSecretChanges cfgNormal envPurgeOnly desiredDisabled currentStale [] 1000000).iam.all
      IAMCall.isPurgeKeys) = true :=
  C1_disabled_only_purge cfgNormal envPurgeOnly desiredDisabled currentStale [] 1000000
    (Or.inl (by decide))

/-- The adopt-or-create sub-action never issues a key creation call. -/
theorem getOrCreate_iam_no_createKey (cfg : Config) (env : PassEnv) (d c : SAState)
    (la now : Int) :
    ((makeSecretChangesGetOrCreateServiceAccount cfg env d c la now).iam.any
      IAMCall.isCreateKey) = false := by
  unfold makeSecretChangesGetOrCreateServiceAccount
  repeat' split
  all_goals simp [apply_ite, IAMCall.isCreateKey]

/-- The set-permissions sub-action never issues a key creation call. -/
theorem setPermissions_iam_no_createKey (cfg : Config) (d c : SAState)
    (la now : Int) (na : Bool) :
    ((makeSecretChangesSetPermissions cfg d c la now na).any IAMCall.isCreateKey) = false := by
  unfold makeSecretChangesSetPermissions
  split
  · rfl
  · rfl

/-- The purge-keys sub-action never issues a key creation call. -/
theorem purgeKeys_iam_no_createKey (cfg : Config) (env : PassEnv) (d c : SAState)
    (la lr now : Int) :
    ((makeSecretChangesPurgeKeys cfg env d c la lr now).iam.any IAMCall.isCreateKey) = false := by
  simp only [makeSecretChangesPurgeKeys]
  split
  · split
    · rfl
    · rfl
  · rfl

/-- One persist attempt succeeds and records its written state when the store
accepts both the update and the refresh. -/
theorem persistSecret_ok (env : StoreEnv) (hu : env.updateSecretOk = true)
    (hg : env.getSecretOk = true) (s : SAState) :
    persistSecret env s = (true, [s]) := by
  simp [persistSecret, updateSecret, hu, hg]

/-- A successful rotation: when the guard of the rotate-keys sub-action holds,
the store accepts the writes and the backend returns key material that decodes,
the sub-action sets LastRenewed to the pass time and its final store write
persists exactly the resulting state. -/
theorem rotateKeys_success (cfg : Config) (env : PassEnv) (d c : SAState)
    (la lr now : Int) (na : Bool) (data : SecretData) (bytes : List Nat)
    (hck : env.createKey = Except.ok (some bytes))
    (hu : env.store.updateSecretOk = true) (hgt : env.store.getSecretOk = true)
    (hguard : (cfg.mode = Mode.normal ∨ cfg.mode = Mode.convenient ∨
        cfg.mode = Mode.rotate_keys_only) ∧
      d.enabled = "true" ∧ d.name ≠ "" ∧ (now - la > 15 * 60 ∨ na = true) ∧
      ((dataLookup data
          (if d.filename = "" then "service-account-key.json" else d.filename)).isSome = false ∨
        cfg.allowDisableKeyRotationOverride = false ∨ d.disableKeyRotation = false) ∧
      c.fullServiceAccountName ≠ "" ∧
      now - lr > cfg.keyRotationAfterHours * 3600) :
    (makeSecretChangesRotateKeys cfg env d c la lr now na data).state.lastRenewed = some now ∧
    (makeSecretChangesRotateKeys cfg env d c la lr now na data).writes.getLast? =
      some (makeSecretChangesRotateKeys cfg env d c la lr now na data).state := by
  simp only [makeSecretChangesRotateKeys]
  rw [if_pos hguard]
  cases na <;> simp [persistSecret_ok env.store hu hgt, hck]

/-- C4: first, a full pass issues a key creation call only when the time since
the recorded lastRenewed exceeds the configured rotation interval in hours;
second, a successful rotation sets lastRenewed to the rotation time and its
final store write persists that state; third, a pass run on a state whose
lastRenewed is within the rotation interval of the pass time, in particular a
pass run immediately after a successful rotation, issues no key creation
call. -/
theorem C4_rotation_interval :
    (∀ (cfg : Config) (env : PassEnv) (d c : SAState) (data : SecretData) (now tR : Int),
      c.lastRenewed = some tR →
      ((makeSecretChanges cfg env d c data now).iam.any IAMCall.isCreateKey) = true →
      now - tR > cfg.keyRotationAfterHours * 3600) ∧
    (∀ (cfg : Config) (env : PassEnv) (d c : SAState) (la lr now : Int) (na : Bool)
      (data : SecretData) (bytes : List Nat),
      env.createKey = Except.ok (some bytes) →
      env.store.updateSecretOk = true → env.store.getSecretOk = true →
      ((cfg.mode = Mode.normal ∨ cfg.mode = Mode.convenient ∨
          cfg.mode = Mode.rotate_keys_only) ∧
        d.enabled = "true" ∧ d.name ≠ "" ∧ (now - la > 15 * 60 ∨ na = true) ∧
        ((dataLookup data
            (if d.filename = "" then "service-account-key.json" else d.filename)).isSome = false ∨
          cfg.allowDisableKeyRotationOverride = false ∨ d.disableKeyRotation = false) ∧
        c.fullServiceAccountName ≠ "" ∧
        now - lr > cfg.keyRotationAfterHours * 3600) →
      (makeSecretChangesRotateKeys cfg env d c la lr now na data).state.lastRenewed = some now ∧
      (makeSecretChangesRotateKeys cfg env d c la lr now na data).writes.getLast? =
        some (makeSecretChangesRotateKeys cfg env d c la lr now na data).state) ∧
    (∀ (cfg : Config) (env : PassEnv) (d c : SAState) (data : SecretData) (t1 t2 : Int),
      c.lastRenewed = some t1 → t2 - t1 ≤ cfg.keyRotationAfterHours * 3600 →
      ((makeSecretChanges cfg env d c data t2).iam.any IAMCall.isCreateKey) = false) := by
  have hno : ∀ (cfg : Config) (env : PassEnv) (d c : SAState) (data : SecretData)
      (t1 now : Int), c.lastRenewed = some t1 →
      ¬ now - t1 > cfg.keyRotationAfterHours * 3600 →
      ((makeSecretChanges cfg env d c data now).iam.any IAMCall.isCreateKey) = false := by
    intro cfg env d c data t1 now h1 htime
    have hpf : parseTimeField c.lastRenewed = t1 := by rw [h1]; rfl
    have hr := rotateKeys_skip cfg env d
      (makeSecretChangesGetOrCreateServiceAccount cfg env d c
        (parseTimeField c.lastAttempt) now).state
      (parseTimeField c.lastAttempt) t1 now
      (makeSecretChangesGetOrCreateServiceAccount cfg env d c
        (parseTimeField c.lastAttempt) now).created
      data (fun hh => htime hh.2.2.2)
    simp only [makeSecretChanges, hpf, hr, List.any_append]
    simp [getOrCreate_iam_no_createKey, setPermissions_iam_no_createKey,
      purgeKeys_iam_no_createKey]
  refine ⟨?_, ?_, ?_⟩
  · intro cfg env d c data now tR h1 hany
    by_contra htime
    rw [hno cfg env d c data tR now h1 htime] at hany
    exact Bool.false_ne_true hany
  · intro cfg env d c la lr now na data bytes hck hu hgt hguard
    exact rotateKeys_success cfg env d c la lr now na data bytes hck hu hgt hguard
  · intro cfg env d c data t1 t2 h1 h2
    exact hno cfg env d c data t1 t2 h1 (by omega)

/-- Concrete fixture: a normal-mode configuration with a one hour rotation
interval. -/
def cfgRot : Config := ⟨Mode.normal, false, 1, 24⟩

/-- Concrete fixture: a pass environment whose backend returns decodable key
material and accepts purges. -/
def envRotate : PassEnv :=
  ⟨⟨true, true, true, true⟩, Except.error (), Except.error (),
    Except.ok (some [1, 2, 3]), Except.ok 0, Except.ok true⟩

/-- Concrete fixture: a desired state enabling the account named myapp. -/
def desiredRot : SAState := { SAState.zero with enabled := "true", name := "myapp" }

/-- C4 witness: on a concrete stale state the pass does issue a key creation
call and the interval bound follows; the rotation success sets lastRenewed to
the pass time; and a pass run at the very moment of the rotation on the
resulting state issues no key creation call. -/
theorem C4_witness :
    ((100000 : Int) - 0 > (1 : Int) * 3600) ∧
    (makeSecretChangesRotateKeys cfgRot envRotate desiredRot currentStale
        goZeroTime 0 100000 false []).state.lastRenewed = some 100000 ∧
    ((makeSecretChanges cfgRot envRotate desiredRot
        (makeSecretChanges cfgRot envRotate desiredRot currentStale [] 100000).state
        [] 100000).iam.any IAMCall.isCreateKey) = false :=
  ⟨C4_rotation_interval.1 cfgRot envRotate desiredRot currentStale [] 100000 0 rfl (by decide),
   (C4_rotation_interval.2.1 cfgRot envRotate desiredRot currentStale goZeroTime 0 100000 false
      [] [1, 2, 3] rfl rfl rfl (by decide)).1,
   C4_rotation_interval.2.2 cfgRot envRotate desiredRot
     (makeSecretChanges cfgRot envRotate desiredRot currentStale [] 100000).state [] 100000 100000
     (by decide) (by decide)⟩

/-- C5: on an account whose keys all carry distinct parseable creation
timestamps, the key purge deletes exactly the keys that are older than the
purge threshold and strictly older than some other key of the account.  In
particular the single newest key is never deleted whatever its age, and an
account with one key, which has no strictly newer companion, never has that
key purged. -/
theorem C5_purge_policy (keys : List SAKey) (now purgeKeysAfterHours : Int)
    (hall : ∀ k ∈ keys, k.validAfterTime ≠ none)
    (hdist : keys.Pairwise (fun a b => a.validAfterTime ≠ b.validAfterTime)) :
    ∀ k, k ∈ purgeSelection keys now purgeKeysAfterHours ↔
      (k ∈ keys ∧ keyOldEnough now purgeKeysAfterHours k = true ∧
        ∃ kk ∈ keys, vatOrd k.validAfterTime < vatOrd kk.validAfterTime) := by
  intro k
  by_cases hlen : 1 < keys.length
  case neg =>
    have hsel : purgeSelection keys now purgeKeysAfterHours = [] := by
      unfold purgeSelection
      rw [if_neg hlen]
    rw [hsel]
    simp only [List.not_mem_nil, false_iff]
    rintro ⟨hk, hold, kk, hkk, hlt⟩
    cases keys with
    | nil => exact List.not_mem_nil k hk
    | cons a tl =>
      cases tl with
      | nil =>
        have hk1 : k = a := by simpa using hk
        have hk2 : kk = a := by simpa using hkk
        rw [hk1, hk2] at hlt
        exact lt_irrefl _ hlt
      | cons b tl2 => exact hlen (by simp)
  case pos =>
    have hperm := List.perm_insertionSort keyNewerEq keys
    have hsorted := List.sorted_insertionSort keyNewerEq keys
    have hlen2 : 1 < (List.insertionSort keyNewerEq keys).length := by
      rw [List.length_insertionSort]
      exact hlen
    cases hsl : List.insertionSort keyNewerEq keys with
    | nil => rw [hsl] at hlen2; simp at hlen2
    | cons h0 t =>
      rw [hsl] at hperm hsorted
      have hsel : purgeSelection keys now purgeKeysAfterHours =
          t.filter (keyOldEnough now purgeKeysAfterHours) := by
        unfold purgeSelection
        rw [if_pos hlen, hsl]
        rfl
      rw [hsel, List.mem_filter]
      have hhead := (List.sorted_cons.mp hsorted).1
      have hpw : (h0 :: t).Pairwise (fun a b => a.validAfterTime ≠ b.validAfterTime) :=
        (hperm.pairwise_iff (fun hxy he => hxy he.symm)).mpr hdist
      have hne := (List.pairwise_cons.mp hpw).1
      constructor
      · rintro ⟨hkt, hold⟩
        refine ⟨hperm.mem_iff.mp (List.mem_cons_of_mem h0 hkt), hold, h0,
          hperm.mem_iff.mp (List.mem_cons_self h0 t), ?_⟩
        have hle : vatOrd k.validAfterTime ≤ vatOrd h0.validAfterTime := hhead k hkt
        have hneq : vatOrd k.validAfterTime ≠ vatOrd h0.validAfterTime :=
          fun he => hne k hkt he.symm
        exact lt_of_le_of_ne hle hneq
      · rintro ⟨hk, hold, kk, hkkmem, hlt⟩
        refine ⟨?_, hold⟩
        have hks : k ∈ h0 :: t := hperm.mem_iff.mpr hk
        rcases List.mem_cons.mp hks with hkh | hkt
        · exfalso
          have hkks : kk ∈ h0 :: t := hperm.mem_iff.mpr hkkmem
          have hkkle : vatOrd kk.validAfterTime ≤ vatOrd h0.validAfterTime := by
            rcases List.mem_cons.mp hkks with he | ht
            · rw [he]
            · exact hhead kk ht
          rw [hkh] at hlt
          exact lt_irrefl _ (lt_of_lt_of_le hlt hkkle)
        · exact hkt

/-- C5 witness: with two keys created at times 0 and 5000, a purge at time
20000 with a one hour threshold deletes the older key; the purge policy
theorem applied at this input certifies the membership. -/
theorem C5_witness :
    (⟨"key-old", some 0⟩ : SAKey) ∈
      purgeSelection [⟨"key-old", some 0⟩, ⟨"key-new", some 5000⟩] 20000 1 :=
  (C5_purge_policy [⟨"key-old", some 0⟩, ⟨"key-new", some 5000⟩] 20000 1
      (by decide) (by decide) ⟨"key-old", some 0⟩).mpr
    ⟨by decide, by decide, ⟨"key-new", some 5000⟩, by decide, by decide⟩

/-- Concrete fixture: the IAM client configuration of a controller governing
project my-proj from cluster project my-cluster. -/
def cfgIAM : IAMServiceConfig := ⟨"my-proj", "my-cluster"⟩

/-- Concrete fixture: a backend that knows no accounts but accepts every key
and account deletion with status 200. -/
def backendPermissive : IAMBackend :=
  ⟨fun _ => none, fun _ => Except.error (), fun _ => Except.error (),
    fun _ => Except.ok 200, fun _ => Except.ok 200⟩

/-- Concrete fixture: a key reference of a foreign project. -/
def foreignKey : SAKey :=
  ⟨"projects/other-proj/serviceAccounts/sa@other-proj.iam.gserviceaccount.com/keys/key1",
    some 0⟩

/-- C6 counterexample: the inner delete-key operation performs no validation
of its own: for a key reference whose name fails the ownership pattern (here a
foreign-project name), it still issues the backend deletion call, a mutation,
and returns success instead of an error. -/
theorem C6_counterexample :
    validateFullServiceAccountName cfgIAM foreignKey.name = false ∧
    deleteServiceAccountKey backendPermissive foreignKey =
      (Except.ok true, [BackendCall.deleteKey foreignKey.name]) ∧
    BackendCall.isMutation (BackendCall.deleteKey foreignKey.name) = true := by
  refine ⟨by decide, rfl, rfl⟩

/-- C6 amended: for every name that fails the structural ownership pattern,
the create-key and delete-account operations, and the purge path through which
key deletions are reached, return an error without a single backend call; only
the inner delete-key helper, which receives a key record rather than an
account name, performs no validation of its own. -/
theorem C6_invalid_name_refused (cfg : IAMServiceConfig) (backend : IAMBackend)
    (name : String) (h : validateFullServiceAccountName cfg name = false) :
    CreateServiceAccountKey cfg backend name = (Except.error (), []) ∧
    DeleteServiceAccount cfg backend name = (Except.error (), []) ∧
    ∀ purgeKeysAfterHours now,
      PurgeServiceAccountKeys cfg backend name purgeKeysAfterHours now =
        (Except.error (), []) := by
  have hv : validateServiceAccount cfg backend name = (false, []) := by
    unfold validateServiceAccount
    rw [h]
    simp
  refine ⟨?_, ?_, ?_⟩
  · unfold CreateServiceAccountKey
    rw [hv]
    rfl
  · unfold DeleteServiceAccount
    rw [hv]
    rfl
  · intro purgeKeysAfterHours now
    unfold PurgeServiceAccountKeys listServiceAccountKeys
    rw [hv]
    rfl

/-- C6 witness: the refusal applied to a concrete foreign-project account
name. -/
theorem C6_witness :
    CreateServiceAccountKey cfgIAM backendPermissive
        "projects/other-proj/serviceAccounts/sa@other-proj.iam.gserviceaccount.com" =
      (Except.error (), []) ∧
    DeleteServiceAccount cfgIAM backendPermissive
        "projects/other-proj/serviceAccounts/sa@other-proj.iam.gserviceaccount.com" =
      (Except.error (), []) ∧
    PurgeServiceAccountKeys cfgIAM backendPermissive
        "projects/other-proj/serviceAccounts/sa@other-proj.iam.gserviceaccount.com" 24 1000 =
      (Except.error (), []) :=
  ⟨(C6_invalid_name_refused cfgIAM backendPermissive _ (by decide)).1,
   (C6_invalid_name_refused cfgIAM backendPermissive _ (by decide)).2.1,
   (C6_invalid_name_refused cfgIAM backendPermissive _ (by decide)).2.2 24 1000⟩

/-- C7 amended: for a logical name of accepted length, the display-name lookup
of the current service variant returns an error exactly when no account
carries the generated display name, and otherwise returns, without error, the
name and email of a matching account whose unique id is greatest in the string
order the source sorts by (which is the numeric order only when the unique ids
have equal digit lengths). -/
theorem C7_lookup_by_display_name (cfg : IAMServiceConfig)
    (accounts : List IAMListedAccount) (name : String)
    (h5 : 5 ≤ name.length) (h69 : name.length ≤ 69) :
    (GetServiceAccountByDisplayName cfg accounts name = Except.error () ↔
      accounts.filter (fun sa => sa.displayName == cfg.localProjectID ++ "/" ++ name) = []) ∧
    (accounts.filter (fun sa => sa.displayName == cfg.localProjectID ++ "/" ++ name) ≠ [] →
      ∃ best,
        best ∈ accounts.filter (fun sa => sa.displayName == cfg.localProjectID ++ "/" ++ name) ∧
        GetServiceAccountByDisplayName cfg accounts name = Except.ok (best.name, best.email) ∧
        ∀ other ∈ accounts.filter (fun sa => sa.displayName == cfg.localProjectID ++ "/" ++ name),
          strLeb other.uniqueId best.uniqueId = true) := by
  have hgen : generatedDisplayName cfg name =
      Except.ok (cfg.localProjectID ++ "/" ++ name) := by
    unfold generatedDisplayName
    rw [if_neg (by omega), if_neg (by omega)]
  have hperm := List.perm_insertionSort accountUidGE
    (accounts.filter (fun sa => sa.displayName == cfg.localProjectID ++ "/" ++ name))
  have hsorted := List.sorted_insertionSort accountUidGE
    (accounts.filter (fun sa => sa.displayName == cfg.localProjectID ++ "/" ++ name))
  have hval : GetServiceAccountByDisplayName cfg accounts name =
      (match List.insertionSort accountUidGE
          (accounts.filter (fun sa => sa.displayName == cfg.localProjectID ++ "/" ++ name)) with
        | [] => Except.error ()
        | best :: _ => Except.ok (best.name, best.email)) := by
    unfold GetServiceAccountByDisplayName
    rw [hgen]
  cases hsl : List.insertionSort accountUidGE
      (accounts.filter (fun sa => sa.displayName == cfg.localProjectID ++ "/" ++ name)) with
  | nil =>
    rw [hsl] at hperm hval
    have hm : accounts.filter (fun sa => sa.displayName == cfg.localProjectID ++ "/" ++ name) = [] :=
      hperm.symm.eq_nil
    constructor
    · simp [hval, hm]
    · intro hne
      exact absurd hm hne
  | cons best t =>
    rw [hsl] at hperm hsorted hval
    have hbest : best ∈
        accounts.filter (fun sa => sa.displayName == cfg.localProjectID ++ "/" ++ name) :=
      hperm.mem_iff.mp (List.mem_cons_self best t)
    constructor
    · constructor
      · intro he
        rw [hval] at he
        exact absurd he (by simp)
      · intro hm
        rw [hm] at hbest
        exact absurd hbest (List.not_mem_nil best)
    · intro hne
      refine ⟨best, hbest, hval, ?_⟩
      intro other hother
      have hos : other ∈ best :: t := hperm.mem_iff.mpr hother
      rcases List.mem_cons.mp hos with he | ht
      · rw [he]
        exact charListLe_total best.uniqueId.toList best.uniqueId.toList |>.elim id id
      · exact (List.sorted_cons.mp hsorted).1 other ht

/-- The legacy two-result display-name lookup of
src/googleCloudIAMService.go returns an error on every input: the branch that
finds and sorts the matches never returns, so control always reaches the final
not-found return. -/
theorem legacyLookup_always_error (saPrefixToken : String)
    (accounts : List IAMListedAccount) (name : String) :
    GetServiceAccountByDisplayNameLegacy saPrefixToken accounts name =
      Except.error () := by
  unfold GetServiceAccountByDisplayNameLegacy
  split
  · rfl
  · rfl

/-- Concrete fixture: a lookup configuration whose local project is called
cluster. -/
def cfgLookup : IAMServiceConfig := ⟨"my-proj", "cluster"⟩

/-- Concrete fixture: an account with unique id 9 matching the display name
cluster/myapp. -/
def acctNine : IAMListedAccount :=
  ⟨"projects/p/serviceAccounts/nine@p.iam", "nine@p", "cluster/myapp", "9"⟩

/-- Concrete fixture: an account with unique id 10 matching the display name
cluster/myapp. -/
def acctTen : IAMListedAccount :=
  ⟨"projects/p/serviceAccounts/ten@p.iam", "ten@p", "cluster/myapp", "10"⟩

/-- C7 counterexample: with two matching accounts of unique ids 9 and 10, the
lookup returns the account with id 9, which is the larger string but the
numerically smaller id, so the claim that the account with the numerically
largest unique id is returned fails on this input. -/
theorem C7_counterexample :
    GetServiceAccountByDisplayName cfgLookup [acctNine, acctTen] "myapp" =
      Except.ok ("projects/p/serviceAccounts/nine@p.iam", "nine@p") ∧
    digitsToNat acctNine.uniqueId < digitsToNat acctTen.uniqueId ∧
    acctTen.displayName = "cluster/myapp" := by
  refine ⟨by decide, by decide, rfl⟩

/-- C7 witness: the amended lookup statement applied to the concrete account
pair; the returned best match is the string-wise largest unique id. -/
theorem C7_witness :
    GetServiceAccountByDisplayName cfgLookup [acctNine, acctTen] "myapp" = Except.error () ↔
      [acctNine, acctTen].filter
        (fun sa => sa.displayName == cfgLookup.localProjectID ++ "/" ++ "myapp") = [] :=
  (C7_lookup_by_display_name cfgLookup [acctNine, acctTen] "myapp"
    (by decide) (by decide)).1

end GcpSA
